import Mathlib

/-!
Verification development for the pico HTTP application server
(src/src/lib.rs, src/src/http/mod.rs, src/src/sql/mod.rs, src/src/route/mod.rs).

The Rust code is shallowly embedded: pure functions become Lean functions,
`HashMap` becomes an association list with replace-in-place insert, byte
buffers become `List Nat`, and fallible operations return `Option`/`Except`.
External collaborators (filesystem static files, the Lua runtime, the
jsonwebtoken crate, serde_json serialization, the Postgres client) are
modelled as explicit capability parameters, exactly at the boundary where
the source calls into them.  A pipeline result of `none` models a Rust
panic (an aborted request).
-/

namespace Pico

/-! ## Association-list model of `HashMap` -/

/-- Lookup in an association list; models `HashMap::get`. -/
def alGet [BEq κ] (m : List (κ × α)) (k : κ) : Option α :=
  (m.find? (fun p => p.1 == k)).map (fun p => p.2)

/-- Insert models `HashMap::insert`: replace the value at an existing key in
place, otherwise append a fresh entry. -/
def alInsert [BEq κ] (m : List (κ × α)) (k : κ) (v : α) : List (κ × α) :=
  if m.any (fun p => p.1 == k) then
    m.map (fun p => if p.1 == k then (k, v) else p)
  else
    m ++ [(k, v)]

/-- Models `headers.entry(name).or_insert_with(Vec::new).push(value)`. -/
def headerAppend (m : List (String × List String)) (k : String) (v : String) :
    List (String × List String) :=
  if m.any (fun p => p.1 == k) then
    m.map (fun p => if p.1 == k then (p.1, p.2 ++ [v]) else p)
  else
    m ++ [(k, [v])]

/-! ## String helpers mirroring the Rust std string API

All string scanning is implemented by structural recursion over the
character list, so every definition reduces inside the kernel. -/

/-- Split a character list on each occurrence of a nonempty separator. -/
def splitOnCharsAux (sep : List Char) : Nat → List Char → List Char → List (List Char)
  | _, [], cur => [cur.reverse]
  | 0, rest, cur => [cur.reverse ++ rest]
  | fuel + 1, c :: rest, cur =>
    if sep.isPrefixOf (c :: rest) then
      cur.reverse :: splitOnCharsAux sep fuel ((c :: rest).drop sep.length) []
    else
      splitOnCharsAux sep fuel rest (c :: cur)

/-- Models Rust `str::split(sep)` collected to a list (nonempty separator);
also the behaviour of `String::splitOn` used throughout the embedding. -/
def strSplitOn (s sep : String) : List String :=
  (splitOnCharsAux sep.data s.data.length s.data []).map String.mk

/-- Models Rust `str::contains(pat)` (substring containment, nonempty pattern). -/
def containsSubstr (s pat : String) : Bool :=
  decide (1 < (strSplitOn s pat).length)

/-- Models Rust `str::starts_with`. -/
def strStartsWith (s pre : String) : Bool :=
  pre.data.isPrefixOf s.data

/-- Models Rust `str::ends_with`. -/
def strEndsWith (s suf : String) : Bool :=
  suf.data.reverse.isPrefixOf s.data.reverse

/-- Drop the first `n` characters (ASCII byte slicing `s[n..]`). -/
def strDrop (s : String) (n : Nat) : String :=
  String.mk (s.data.drop n)

/-- Drop the last `n` characters. -/
def strDropRight (s : String) (n : Nat) : String :=
  String.mk (s.data.take (s.data.length - n))

/-- Models Rust `str::trim` (ASCII whitespace at both ends). -/
def strTrim (s : String) : String :=
  String.mk (((s.data.dropWhile Char.isWhitespace).reverse.dropWhile Char.isWhitespace).reverse)

/-- Models Rust ASCII lowercasing as applied to header names. -/
def strToLower (s : String) : String :=
  String.mk (s.data.map Char.toLower)

/-- Models `str::parse::<usize>()` as used for `content-length` (digits
only). -/
def strToNat? (s : String) : Option Nat :=
  if s.data ≠ [] ∧ s.data.all Char.isDigit then
    some (s.data.foldl (fun acc c => 10 * acc + (c.toNat - 48)) 0)
  else none

/-- Models `s.strip_suffix(suf).unwrap_or(s)`. -/
def stripSuffix (s suf : String) : String :=
  if strEndsWith s suf then strDropRight s suf.length else s

/-- Models Rust `str::split_once(sep)`. -/
def splitOnce (s sep : String) : Option (String × String) :=
  match strSplitOn s sep with
  | [] => none
  | [_] => none
  | a :: rest => some (a, String.intercalate sep rest)

/-- Models Rust `str::lines`: split on a line feed, drop one trailing empty
piece, and strip a trailing carriage return from each line. -/
def rustLines (s : String) : List String :=
  let parts := strSplitOn s "\n"
  let parts := match parts.getLast? with
    | some "" => parts.dropLast
    | _ => parts
  parts.map (fun p => if strEndsWith p "\r" then strDropRight p 1 else p)

/-- Accumulating scanner behind `splitWhitespace`. -/
def splitWsAux : List Char → List Char → List String
  | [], cur => if cur.isEmpty then [] else [String.mk cur.reverse]
  | c :: rest, cur =>
    if c.isWhitespace then
      if cur.isEmpty then splitWsAux rest []
      else String.mk cur.reverse :: splitWsAux rest []
    else splitWsAux rest (c :: cur)

/-- Models Rust `str::split_whitespace`. -/
def splitWhitespace (s : String) : List String :=
  splitWsAux s.data []

/-- Models `String::from_utf8_lossy` restricted to ASCII input (every byte
relevant to the embedded requests is ASCII). -/
def bytesToStr (l : List Nat) : String :=
  String.mk (l.map (fun b => Char.ofNat b))

/-- ASCII string to bytes, the inverse direction of `bytesToStr`. -/
def strToBytes (s : String) : List Nat :=
  s.data.map (fun c => c.toNat)

/-! ## JSON values (serde_json::Value) -/

/-- Models `serde_json::Value`.  Numbers are restricted to integers; none of
the verified properties computes with numeric payloads. -/
inductive JsonVal where
  | null
  | bool (b : Bool)
  | num (n : Int)
  | str (s : String)
  | arr (items : List JsonVal)
  | obj (fields : List (String × JsonVal))

/-- Models `Value::is_null`. -/
def JsonVal.isNull : JsonVal → Bool
  | .null => true
  | _ => false

/-- Models `Value::as_object`. -/
def JsonVal.asObject : JsonVal → Option (List (String × JsonVal))
  | .obj fields => some fields
  | _ => none

/-! ## Response codes and responses (src/src/http/mod.rs) -/

/-- Models `http::ResponseCode`. -/
inductive ResponseCode where
  | Ok
  | NotFound
  | InternalError
  | BadRequest
  | Unauthorized
  | HeaderFieldsTooLarge
deriving DecidableEq

/-- Models `ResponseCode::to_str`. -/
def ResponseCode.to_str : ResponseCode → String
  | .Ok => "OK"
  | .NotFound => "Not Found"
  | .InternalError => "Internal Server Error"
  | .BadRequest => "Bad Request"
  | .Unauthorized => "Unauthorized"
  | .HeaderFieldsTooLarge => "Header Fields Too Large"

/-- Models `http::PicoResponse`.  The body is kept as a `String` (all bodies
produced by the pipeline are ASCII text; `Vec<u8>` byte identity is not
needed by any claim). -/
structure PicoResponse where
  status : ResponseCode
  body : String
  headers : List (String × List String)
deriving DecidableEq

/-- Models `PicoResponse::success`. -/
def PicoResponse.success (body : String) : PicoResponse :=
  { status := .Ok, body := body, headers := [] }

/-- Models the `serde_json::json!` error document rendered by `to_string`
(serde_json maps iterate in sorted key order, so `code` precedes `message`;
string escaping is omitted, every message used here is plain ASCII). -/
def errorBodyJson (message : String) (code : String) : String :=
  "\x7b\"error\":\x7b\"code\":\"" ++ code ++ "\",\"message\":\"" ++ message ++ "\"\x7d\x7d"

/-- Models `PicoResponse::error`. -/
def PicoResponse.error (status : ResponseCode) (message : String) : PicoResponse :=
  { status := status
    body := errorBodyJson message status.to_str
    headers := [("Content-Type", ["application/json"])] }

/-! ## Request method (src/src/route/mod.rs) -/

/-- Models `route::Method`. -/
inductive Method where
  | GET
  | POST
  | PUT
  | DELETE
  | WS
  | SSE
deriving DecidableEq

/-- Models `impl FromStr for Method` (lowercased match; unknown verbs fail). -/
def Method.from_str (s : String) : Option Method :=
  match strToLower s with
  | "get" => some .GET
  | "post" => some .POST
  | "put" => some .PUT
  | "delete" => some .DELETE
  | "ws_upgrade?" => some .WS
  | "sse" => some .SSE
  | _ => none

/-! ## Request body (src/src/http/mod.rs) -/

/-- Models `http::Body`. -/
inductive Body where
  | json (value : JsonVal)
  | form (fields : List (String × String))
  | raw (items : List Nat)

/-! ## The Lua boundary (mlua), modelled as a capability -/

/-- Models `mlua::Error`: a runtime error with a message, or any other error
kind (conversion errors, memory errors, ...). -/
inductive LuaErr where
  | runtimeError (msg : String)
  | otherError (msg : String)

/-- Models `mlua::Error`'s `Display` implementation as used by `e.to_string()`
(a runtime error displays with a prefix; the substring checks performed on it
are unaffected by the prefix). -/
def LuaErr.display : LuaErr → String
  | .runtimeError msg => "runtime error: " ++ msg
  | .otherError msg => msg

/-- Models `mlua::Value` at the granularity the pipeline observes: nil, a
value with a JSON image, or a value (function, userdata, ...) that
`Lua::from_value` cannot serialize. -/
inductive LuaVal where
  | nil
  | json (v : JsonVal)
  | noJson (tag : String)

/-- Models `Lua::from_value` (Lua nil deserializes to JSON null). -/
def luaFromValue : LuaVal → Except String JsonVal
  | .nil => .ok .null
  | .json v => .ok v
  | .noJson tag => .error ("cannot serialize " ++ tag)

/-- Models a `mlua::Function`: it can be called with two arguments or with
one argument, and either call returns a value or fails with a Lua error. -/
structure LuaFun where
  call2 : LuaVal → LuaVal → Except LuaErr LuaVal
  call1 : LuaVal → Except LuaErr LuaVal

/-- Models `call_lua_function_with_optional_jwt` (src/src/lib.rs): try the
two-argument form first and fall back to the one-argument form only when the
error message looks like an arity failure. -/
def call_lua_function_with_optional_jwt (f : LuaFun) (data jwt : LuaVal) :
    Except LuaErr LuaVal :=
  match f.call2 data jwt with
  | .ok result => .ok result
  | .error e =>
    let error_msg := e.display
    if containsSubstr error_msg "wrong number of arguments"
        || containsSubstr error_msg "attempt to call" then
      f.call1 data
    else
      .error e

/-- Models `is_user_lua_error` (src/src/lib.rs). -/
def is_user_lua_error : LuaErr → Bool
  | .runtimeError msg => containsSubstr msg "error: " || strStartsWith msg "error: "
  | _ => false

/-- Models `extract_lua_error_message` (src/src/lib.rs). -/
def extract_lua_error_message : LuaErr → String
  | .runtimeError msg =>
    let user_msg := (strSplitOn msg "stack traceback:").headD msg
    let cleaned := strTrim user_msg
    if strStartsWith cleaned "error: " then strTrim (strDrop cleaned 7) else cleaned
  | e => e.display

/-! ## Session codec (jsonwebtoken, consumed by src/src/lib.rs) -/

/-- Modelled from the spec: a signed session token produced by the
jsonwebtoken crate (external to the repository).  A token carries its claims
and records which secret signed it; this idealizes an unforgeable HS256 MAC. -/
structure JwtToken where
  claims : JsonVal
  signedWith : String

/-- Modelled from the spec: `jsonwebtoken::encode` with a server secret —
signing attaches the secret's MAC to the claims. -/
def jwt_encode (secret : String) (claims : JsonVal) : JwtToken :=
  { claims := claims, signedWith := secret }

/-- Modelled from the spec: `jsonwebtoken::decode` with a server secret —
verification succeeds exactly when the token was signed with the same
secret, and a failed verification is `none`, never an error. -/
def jwt_decode (secret : String) (token : JwtToken) : Option JsonVal :=
  if token.signedWith == secret then some token.claims else none

/-- Models `extract_jwt_claims` (src/src/lib.rs): scan the `cookie` header
values, split each on `;`, trim, and decode the first `pico_jwt=` cookie
that verifies; the token decode itself (jsonwebtoken) is a capability. -/
def extract_jwt_claims (decode : String → Option JsonVal)
    (headers : List (String × List String)) : Option JsonVal :=
  match alGet headers "cookie" with
  | none => none
  | some cookie_headers =>
    cookie_headers.findSome? (fun cookie_header =>
      (strSplitOn cookie_header ";").findSome? (fun cookie =>
        let cookie := strTrim cookie
        if strStartsWith cookie "pico_jwt=" then
          decode (strDrop cookie 9)
        else none))

/-! ## Route tree (src/src/lib.rs `RouteTree`) -/

/-- Models `RouteTree`: a map from path segment (or `*`) to child, plus the
node's parameter name. -/
inductive RouteTree where
  | node (parameter_name : String) (nodes : List (String × RouteTree))

/-- The node's `parameter_name` field. -/
def RouteTree.parameter_name : RouteTree → String
  | .node pn _ => pn

/-- The node's `nodes` child map. -/
def RouteTree.nodes : RouteTree → List (String × RouteTree)
  | .node _ ns => ns

/-- Models `tree.nodes.get(&key)`. -/
def RouteTree.findChild (t : RouteTree) (k : String) : Option RouteTree :=
  alGet t.nodes k

/-- Replace the child at a key, or append it; the list half of
`nodes.entry(key).or_insert(..)` followed by mutation through the entry. -/
def setChild : List (String × RouteTree) → String → RouteTree → List (String × RouteTree)
  | [], key, c => [(key, c)]
  | (k, old) :: tl, key, c =>
    if k == key then (k, c) :: tl else (k, old) :: setChild tl key c

/-- Models one registered path's insertion walk in `validate_pico_config`
(src/src/lib.rs:1031-1052): a segment starting with `:` is keyed `*`, and
either way `or_insert` creates the child with `parameter_name` equal to the
segment itself. -/
def RouteTree.insertPath : RouteTree → List String → RouteTree
  | t, [] => t
  | t, seg :: rest =>
    let key := if strStartsWith seg ":" then "*" else seg
    let child := match t.findChild key with
      | some c => c
      | none => RouteTree.node seg []
    RouteTree.node t.parameter_name (setChild t.nodes key (child.insertPath rest))

/-- Models the path split used by both tree construction and resolution:
split on `/` and discard empty segments. -/
def splitSegments (p : String) : List String :=
  (strSplitOn p "/").filter (fun s => s != "")

/-- Models the route-tree construction loop of `validate_pico_config`,
folded over the registered route paths. -/
def create_route_tree (paths : List String) : RouteTree :=
  paths.foldl (fun t p => t.insertPath (splitSegments p)) (RouteTree.node "" [])

/-- Outcome of the resolution walk at the top of
`PicoService::handle_http_pico_request`. -/
inductive ResolveOutcome where
  | static (response : String)
  | notFound
  | matched (routePath : String) (routeParameters : List (String × String))
deriving DecidableEq

/-- Models the route-key accumulation: push `/` unless the key is still
empty, then append the child's parameter name. -/
def appendSeg (routePath name : String) : String :=
  if routePath == "" then name else routePath ++ "/" ++ name

/-- Models the per-segment resolution loop of `handle_http_pico_request`
(src/src/lib.rs:495-536): prefer an exact child; on a miss consult the
static-file capability (at the full request path) before the wildcard
child; fail only when the wildcard is also absent. -/
def resolveWalk (staticF : String → Option String) (requestPath : String) :
    List String → RouteTree → String → List (String × String) → ResolveOutcome
  | [], _, routePath, params => .matched routePath params
  | seg :: rest, tree, routePath, params =>
    match tree.findChild seg with
    | some subtree =>
      resolveWalk staticF requestPath rest subtree
        (appendSeg routePath subtree.parameter_name) params
    | none =>
      match staticF requestPath with
      | some response => .static response
      | none =>
        match tree.findChild "*" with
        | some subtree =>
          resolveWalk staticF requestPath rest subtree
            (appendSeg routePath subtree.parameter_name)
            (alInsert params subtree.parameter_name seg)
        | none => .notFound

/-- Route resolution over the whole request path. -/
def resolveRoute (staticF : String → Option String) (tree : RouteTree)
    (requestPath : String) : ResolveOutcome :=
  resolveWalk staticF requestPath (splitSegments requestPath) tree "" []

/-! ## Routes, handlers and the service (src/src/lib.rs, src/src/route/mod.rs) -/

/-- Models `html::View` as the consumed render capability
(`view.to_html(json_body)`). -/
structure ViewT where
  render : JsonVal → String

/-- Models a loaded SQL function as consumed by the pipeline: its declared
parameter names and its `execute` capability (`Function::execute` against
the database connection). -/
structure SqlFunctionM where
  parameters : List String
  execute : List (String × JsonVal) → Except ResponseCode JsonVal

/-- Models `RouteHandler` as used by `handle_http_pico_request`. -/
structure RouteHandlerM where
  view : Option ViewT
  sql_function_name : Option String
  set_jwt : Option LuaFun
  pre_process : Option LuaFun
  post_process : Option LuaFun

/-- Models `Route`. -/
structure RouteM where
  definitions : List (Method × RouteHandlerM)

/-- External capabilities consumed by the pipeline: `try_serve_static_file`
(filesystem; `some` is the `Ok` bytes case), jsonwebtoken decode/encode
specialized to the service secret, and serde_json serialization. -/
structure Ctx where
  staticFile : String → Option String
  decodeJwt : String → Option JsonVal
  sign : JsonVal → Option String
  serialize : JsonVal → String

/-- Models the `PicoService` state the request pipeline reads. -/
structure ServiceM where
  routes : List (String × RouteM)
  route_tree : RouteTree
  functions : List (String × SqlFunctionM)

/-- Models `PicoRequest`. -/
structure PicoRequestM where
  method : Method
  path : String
  query : List (String × String)
  version : String
  headers : List (String × List String)
  body : Body

/-! ## Request pipeline (PicoService::handle_http_pico_request) -/

/-- Models the initial `function_input` construction: JSON-object body
fields or form fields first, then route parameters override; a raw body
reaches `todo!()` and the request panics (`none`). -/
def buildFunctionInput (body : Body) (route_parameters : List (String × String)) :
    Option (List (String × JsonVal)) :=
  match body with
  | .json j =>
    let base := match j.asObject with
      | some obj => obj.foldl (fun m kv => alInsert m kv.1 kv.2) []
      | none => []
    some (route_parameters.foldl (fun m kv => alInsert m kv.1 (JsonVal.str kv.2)) base)
  | .form fields =>
    let base := fields.foldl (fun m kv => alInsert m kv.1 (JsonVal.str kv.2)) []
    some (route_parameters.foldl (fun m kv => alInsert m kv.1 (JsonVal.str kv.2)) base)
  | .raw _ => none

/-- Models `match &jwt_claims { Some(claims) => lua.to_value(claims), None =>
Nil }`, shared verbatim by the PREPROCESS and POSTPROCESS blocks. -/
def luaJwtOf : Option JsonVal → LuaVal
  | some claims => LuaVal.json claims
  | none => LuaVal.nil

/-- Models `match json_body.is_null() { true => empty table, false =>
lua.to_value(&json_body) }`, shared verbatim by the SETJWT and POSTPROCESS
blocks. -/
def luaBodyOf (json_body : JsonVal) : LuaVal :=
  if json_body.isNull then LuaVal.json (JsonVal.obj []) else LuaVal.json json_body

/-- Models the tail of the PREPROCESS block: deserialize the hook result
(falling back to the pre-hook input JSON on a conversion error) and merge
object fields into `function_input`. -/
def mergePreprocessed (function_input : List (String × JsonVal))
    (function_input_json : JsonVal) (preprocessed : LuaVal) :
    List (String × JsonVal) :=
  let preprocessed_json := match luaFromValue preprocessed with
    | .ok pj => pj
    | .error _ => function_input_json
  match preprocessed_json with
  | .obj obj => obj.foldl (fun m kv => alInsert m kv.1 kv.2) function_input
  | _ => function_input

/-- Models the PREPROCESS block of `handle_http_pico_request`
(src/src/lib.rs:630-681): a user-level Lua error is terminal `BadRequest`
with the extracted message; any other call failure falls back to the
original input. -/
def preProcessStep (pre_process : Option LuaFun)
    (function_input : List (String × JsonVal)) (jwt_claims : Option JsonVal) :
    Except PicoResponse (List (String × JsonVal)) :=
  match pre_process with
  | none => .ok function_input
  | some f =>
    let function_input_json := JsonVal.obj function_input
    let lua_input := LuaVal.json function_input_json
    let lua_jwt := luaJwtOf jwt_claims
    match call_lua_function_with_optional_jwt f lua_input lua_jwt with
    | .ok p => .ok (mergePreprocessed function_input function_input_json p)
    | .error e =>
      if is_user_lua_error e then
        .error (PicoResponse.error .BadRequest (extract_lua_error_message e))
      else
        .ok (mergePreprocessed function_input function_input_json lua_input)

/-- Models the SQL branch of the pipeline: catalog lookup, input assembly,
PREPROCESS, parameter validation, then invocation.  `none` is a panic
(raw body). -/
def invokePhase (svc : ServiceM) (handler : RouteHandlerM) (body : Body)
    (route_parameters : List (String × String)) (jwt_claims : Option JsonVal) :
    Option (Except PicoResponse JsonVal) :=
  match handler.sql_function_name with
  | none => some (.ok JsonVal.null)
  | some file_name =>
    let function_name := stripSuffix file_name ".sql"
    match alGet svc.functions function_name with
    | none => some (.error (PicoResponse.error .InternalError "SQL function not found"))
    | some function =>
      match buildFunctionInput body route_parameters with
      | none => none
      | some function_input =>
        match preProcessStep handler.pre_process function_input jwt_claims with
        | .error resp => some (.error resp)
        | .ok function_input =>
          match function.parameters.find?
              (fun param => !(function_input.any (fun kv => kv.1 == param))) with
          | some param =>
            some (.error (PicoResponse.error .BadRequest
              ("Missing required parameter: " ++ param)))
          | none =>
            match function.execute function_input with
            | .ok value => some (.ok value)
            | .error rc =>
              some (.error (PicoResponse.error rc
                ("SQL execution failed: " ++ rc.to_str)))

/-- Models the SETJWT block of `handle_http_pico_request`
(src/src/lib.rs:738-795).  Returns the response headers accumulated so far
and the possibly replaced in-flight claims. -/
def setJwtStep (sign : JsonVal → Option String) (set_jwt : Option LuaFun)
    (json_body : JsonVal) (jwt_claims : Option JsonVal) :
    Except PicoResponse (List (String × List String) × Option JsonVal) :=
  match set_jwt with
  | none => .ok ([], jwt_claims)
  | some set_jwt_fn =>
    let lua_body := luaBodyOf json_body
    match set_jwt_fn.call1 lua_body with
    | .ok claims =>
      match luaFromValue claims with
      | .error _ =>
        .error (PicoResponse.error .InternalError "JWT claims conversion failed")
      | .ok new_jwt_claims =>
        let jwt := match sign new_jwt_claims with
          | some jwt => jwt
          | none => ""
        if jwt != "" then
          .ok ([("Set-Cookie", ["pico_jwt=" ++ jwt ++ "; HttpOnly; Path=/;"])],
            some new_jwt_claims)
        else
          .ok ([], jwt_claims)
    | .error e =>
      if is_user_lua_error e then
        .error (PicoResponse.error .Unauthorized (extract_lua_error_message e))
      else
        .ok ([], jwt_claims)

/-- Models the POSTPROCESS block (src/src/lib.rs:797-843). -/
def postProcessStep (post_process : Option LuaFun) (json_body : JsonVal)
    (jwt_claims : Option JsonVal) : Except PicoResponse JsonVal :=
  match post_process with
  | none => .ok json_body
  | some post_process_fn =>
    let lua_body := luaBodyOf json_body
    let lua_jwt := luaJwtOf jwt_claims
    match call_lua_function_with_optional_jwt post_process_fn lua_body lua_jwt with
    | .ok t =>
      .ok (match luaFromValue t with
        | .ok jb => jb
        | .error _ => json_body)
    | .error e =>
      if is_user_lua_error e then
        .error (PicoResponse.error .BadRequest (extract_lua_error_message e))
      else
        .ok (match luaFromValue lua_body with
          | .ok jb => jb
          | .error _ => json_body)

/-- Models the VIEW / content-negotiation and finalization tail of
`handle_http_pico_request` (src/src/lib.rs:845-888): serialize the payload;
only when an `accept` header exists, negotiate HTML against the first
accept value or the `hx-request` marker; then attach `Content-Length`. -/
def finalize (ctx : Ctx) (request : PicoRequestM) (handler : RouteHandlerM)
    (headers0 : List (String × List String)) (json_body : JsonVal) : PicoResponse :=
  let binding := ctx.serialize json_body
  let result := match alGet request.headers "accept" with
    | some accept_headers =>
      if (accept_headers.head?.getD "") == "text/html"
          || ((alGet request.headers "hx-request").getD []).head? == some "true" then
        match handler.view with
        | some view => (view.render json_body, alInsert headers0 "Content-Type" ["text/html"])
        | none => (binding, alInsert headers0 "Content-Type" ["application/json"])
      else
        (binding, alInsert headers0 "Content-Type" ["application/json"])
    | none => (binding, headers0)
  let headers := alInsert result.2 "Content-Length" [toString result.1.length]
  { status := .Ok, body := result.1, headers := headers }

/-- Models `PicoService::handle_http_pico_request` end to end.  A result of
`none` models a Rust panic inside request handling. -/
def handle_http_pico_request (ctx : Ctx) (svc : ServiceM) (request : PicoRequestM) :
    Option PicoResponse :=
  match resolveRoute ctx.staticFile svc.route_tree request.path with
  | .static response => some (PicoResponse.success response)
  | .notFound => some (PicoResponse.error .NotFound "Route not found")
  | .matched pico_route_path route_parameters =>
    match alGet svc.routes pico_route_path with
    | none => some (PicoResponse.error .NotFound "Route not found")
    | some pico_route =>
      match alGet pico_route.definitions request.method with
      | none => some (PicoResponse.error .NotFound "Method not allowed for this route")
      | some route_handler =>
        let jwt_claims := extract_jwt_claims ctx.decodeJwt request.headers
        match invokePhase svc route_handler request.body route_parameters jwt_claims with
        | none => none
        | some (.error resp) => some resp
        | some (.ok json_body) =>
          match setJwtStep ctx.sign route_handler.set_jwt json_body jwt_claims with
          | .error resp => some resp
          | .ok hj =>
            match postProcessStep route_handler.post_process json_body hj.2 with
            | .error resp => some resp
            | .ok json_body2 => some (finalize ctx request route_handler hj.1 json_body2)

/-! ## Wire reader (src/src/http/mod.rs) -/

/-- Models the `MAX_HEADER_SIZE` constant. -/
def MAX_HEADER_SIZE : Nat := 1024

/-- The `\r\n\r\n` header terminator bytes. -/
def crlfcrlf : List Nat := [13, 10, 13, 10]

/-- Models `buf.windows(4).any(|w| w == b"\r\n\r\n")`: test the 4-byte
window at every start position. -/
def containsTerm : List Nat → Bool
  | [] => false
  | a :: rest => ((a :: rest).take 4 == crlfcrlf) || containsTerm rest

/-- Models the header-accumulation loop of `handle_stream`
(src/src/http/mod.rs:156-177).  The stream is a list of successive read
results; an exhausted stream or an empty read models `read` returning zero
bytes.  `buf.windows(4).any(..)` is infix containment of the terminator.
On success, returns the accumulated buffer and the unread remainder of the
stream. -/
def headerReadLoop : List Nat → List (List Nat) → Except ResponseCode (List Nat × List (List Nat))
  | _, [] => .error .BadRequest
  | buf, chunk :: rest =>
    if chunk.length == 0 then .error .BadRequest
    else
      let buf2 := buf ++ chunk
      if containsTerm buf2 then .ok (buf2, rest)
      else if MAX_HEADER_SIZE < buf2.length then .error .HeaderFieldsTooLarge
      else headerReadLoop buf2 rest

/-- Models `buf.windows(4).position(|w| w == b"\r\n\r\n")`. -/
def findTermIdx : List Nat → Option Nat
  | [] => none
  | a :: rest =>
    if (a :: rest).take 4 == crlfcrlf then some 0
    else (findTermIdx rest).map (fun i => i + 1)

/-- A `\w` word character, as in the Rust regex crate (ASCII input). -/
def isWordChar (c : Char) : Bool := c.isAlphanum || c == '_'

/-- One attempted match of the query regex `(\w+)=(\w+)` at the current
position: a nonempty word run, `=`, a nonempty word run. -/
def tryMatchQuery (cs : List Char) : Option (String × String × List Char) :=
  let k := cs.takeWhile isWordChar
  let rest1 := cs.dropWhile isWordChar
  if k.isEmpty then none
  else match rest1 with
    | '=' :: rest2 =>
      let v := rest2.takeWhile isWordChar
      if v.isEmpty then none
      else some (String.mk k, String.mk v, rest2.dropWhile isWordChar)
    | _ => none

/-- Leftmost, non-overlapping scan for `(\w+)=(\w+)` matches, as
`captures_iter` produces them; fuel is the input length (every step
consumes at least one character). -/
def scanQueries : Nat → List Char → List (String × String) → List (String × String)
  | 0, _, acc => acc
  | _ + 1, [], acc => acc
  | fuel + 1, c :: cs, acc =>
    match tryMatchQuery (c :: cs) with
    | some kvr => scanQueries fuel kvr.2.2 (alInsert acc kvr.1 kvr.2.1)
    | none => scanQueries fuel cs acc

/-- Models `parse_query_parameters` (src/src/http/mod.rs:329-347). -/
def parse_query_parameters (query : String) : List (String × String) :=
  scanQueries query.length query.data []

/-- Models the body-read phase of `parse_to_pico_request`
(src/src/http/mod.rs:229-267): determine the declared length (default 0 on
a missing or unparsable header), and only when the already captured bytes
EXCEED it, perform one further read into a buffer of that size (`some`
chunk available: up to `content_length` bytes arrive; exhausted stream: the
timed-out read errors and the request fails `BadRequest`). -/
def readBodyPhase (headers : List (String × List String)) (read_body : List Nat)
    (stream : List (List Nat)) : Except ResponseCode (List Nat) :=
  let content_length_str := match (alGet headers "content-length").bind List.head? with
    | some cl => cl
    | none => "0"
  let content_length := match strToNat? content_length_str with
    | some len => len
    | none => 0
  let body_bytes := read_body
  if content_length < body_bytes.length then
    match stream with
    | [] => .error .BadRequest
    | chunk :: _ => .ok (body_bytes ++ chunk.take content_length)
  else
    .ok body_bytes

/-- Models the body classification of `parse_to_pico_request`
(src/src/http/mod.rs:275-298).  The JSON and form decoders (serde_json and
the url crate) are capabilities; `body` is initialized to `Json(Null)` and
the misspelled `"mutipart/form-data"` arm leaves it untouched. -/
def classifyBody (parseJson : List Nat → Option JsonVal)
    (parseForm : List Nat → List (String × String))
    (content_type : String) (body_bytes : List Nat) : Body :=
  if content_type == "application/json" then
    .json ((parseJson body_bytes).getD .null)
  else if content_type == "application/x-www-form-urlencoded" then
    .form (parseForm body_bytes)
  else if content_type == "mutipart/form-data" then
    .json .null
  else
    .raw body_bytes

/-- Models the header half of `HttpRequest` handed to
`parse_to_pico_request`. -/
structure HttpRequestM where
  method : String
  path : String
  version : String
  headers : List (String × List String)

/-- Models `parse_to_pico_request` (src/src/http/mod.rs:223-327). -/
def parse_to_pico_request (parseJson : List Nat → Option JsonVal)
    (parseForm : List Nat → List (String × String))
    (http_request : HttpRequestM) (read_body : List Nat)
    (stream : List (List Nat)) : Except ResponseCode PicoRequestM :=
  match readBodyPhase http_request.headers read_body stream with
  | .error rc => .error rc
  | .ok body_bytes =>
    let content_type := match (alGet http_request.headers "content-type").bind List.head? with
      | some ct => ct
      | none => "application/json"
    let body := classifyBody parseJson parseForm content_type body_bytes
    let split_path := strSplitOn http_request.path "?"
    let pq :=
      if split_path.length == 1 then (split_path.headD "", ([] : List (String × String)))
      else if split_path.length == 2 then
        let query_string := split_path.getD 1 ""
        (split_path.headD "",
          if query_string != "" then parse_query_parameters query_string else [])
      else ("", [])
    let method := (Method.from_str http_request.method).getD .GET
    .ok { method := method, path := pq.1, query := pq.2,
          version := http_request.version, headers := http_request.headers,
          body := body }

/-- Models `handle_stream` (src/src/http/mod.rs:156-222): accumulate
headers, split at the terminator, parse the request line and header lines,
and hand the body remainder plus the unread stream to
`parse_to_pico_request`. -/
def handle_stream (parseJson : List Nat → Option JsonVal)
    (parseForm : List Nat → List (String × String))
    (chunks : List (List Nat)) : Except ResponseCode PicoRequestM :=
  match headerReadLoop [] chunks with
  | .error rc => .error rc
  | .ok br =>
    match findTermIdx br.1 with
    | none => .error .BadRequest
    | some header_end =>
      let header_bytes := br.1.take (header_end + 4)
      let body_bytes := br.1.drop (header_end + 4)
      let header_text := bytesToStr header_bytes
      match rustLines header_text with
      | [] => .error .BadRequest
      | request_line :: header_lines =>
        match splitWhitespace request_line with
        | method :: path :: version :: _ =>
          let headers := header_lines.foldl (fun m line =>
            match splitOnce line ":" with
            | some nv =>
              let name := strToLower (strTrim nv.1)
              (strSplitOn nv.2 ",").foldl (fun m2 v => headerAppend m2 name (strTrim v)) m
            | none => m) []
          parse_to_pico_request parseJson parseForm
            { method := method, path := path, version := version, headers := headers }
            body_bytes br.2
        | _ => .error .BadRequest

/-! ## Stored procedures (src/src/sql/mod.rs) -/

/-- Models `sql::Sproc`. -/
structure Sproc where
  sql : String
  parameters : List String

/-- Models the ingestion-parameter collection loop of `Sproc::execute`:
every declared parameter must be present in the input; a missing one fails
the whole call with `BadRequest`. -/
def collectIngestionParams : List String → List (String × JsonVal) → Option (List JsonVal)
  | [], _ => some []
  | param :: rest, input =>
    match alGet input param with
    | some p => (collectIngestionParams rest input).map (fun l => p :: l)
    | none => none

/-- Models `Sproc::execute` (src/src/sql/mod.rs:27-83) given the database
query as a capability (a row is a list of columns whose value is `none`
when `try_get` errors, which the source skips).  The outer `none` models a
panic: with exactly one result row the source evaluates `results[1]`, an
out-of-bounds index on a length-one vector. -/
def Sproc.execute (sp : Sproc) (input : List (String × JsonVal))
    (query : List JsonVal → Except Unit (List (List (String × Option JsonVal)))) :
    Option (Except ResponseCode JsonVal) :=
  match collectIngestionParams sp.parameters input with
  | none => some (.error .BadRequest)
  | some ingestion_params =>
    match query ingestion_params with
    | .error _ => some (.error .InternalError)
    | .ok rows =>
      let results := rows.map (fun row => JsonVal.obj (row.foldl (fun m col =>
        match col.2 with
        | some value => alInsert m col.1 value
        | none => m) []))
      if results.length == 0 then some (.ok .null)
      else if results.length == 1 then
        match results.get? 1 with
        | some v => some (.ok v)
        | none => none
      else some (.ok (JsonVal.arr results))

/-- Boolean discriminator for `Except` success, used to separate terminal
error outcomes from accepted requests. -/
def exOk : Except ε α → Bool
  | .ok _ => true
  | .error _ => false

/-! ## Claim C7: session-codec round trip -/

/-- C7: encoding a claims object and decoding with the same secret yields
the original claims; decoding any token with a secret other than the one
that signed it yields `none`, never an error.  The third conjunct exercises
the repository's cookie scan (`extract_jwt_claims`): a malformed `pico_jwt`
cookie is skipped and the first verifying cookie wins. -/
theorem c7_roundtrip (secret : String) (claims : JsonVal) :
    jwt_decode secret (jwt_encode secret claims) = some claims ∧
    (∀ (secret2 : String) (token : JwtToken), secret2 ≠ token.signedWith →
      jwt_decode secret2 token = none) ∧
    extract_jwt_claims (fun t => if t == "TOK" then some (JsonVal.num 1) else none)
      [("cookie", ["a=b; pico_jwt=BAD; pico_jwt=TOK"])] = some (JsonVal.num 1) := by
  refine ⟨?_, ?_, rfl⟩
  · simp [jwt_decode, jwt_encode]
  · intro secret2 token hne
    simp only [jwt_decode]
    rw [if_neg]
    simp only [beq_iff_eq]
    exact fun h => hne h.symm

/-- Witness for C7 at concrete secrets and claims. -/
theorem c7_roundtrip_witness :
    jwt_decode "s1" (jwt_encode "s1" (JsonVal.str "u")) = some (JsonVal.str "u") ∧
    jwt_decode "s2" { claims := JsonVal.str "u", signedWith := "s1" } = none :=
  ⟨(c7_roundtrip "s1" (JsonVal.str "u")).1,
   (c7_roundtrip "s1" (JsonVal.str "u")).2.1 "s2"
     { claims := JsonVal.str "u", signedWith := "s1" } (by decide)⟩

/-! ## Claim C2: reachable panics in single-request handling -/

/-- Service fixture for the raw-body panic: one route bound to a SQL
function. -/
def c2handler : RouteHandlerM :=
  { view := none, sql_function_name := some "f.sql", set_jwt := none,
    pre_process := none, post_process := none }

/-- Pipeline capabilities for the C2 fixture. -/
def c2ctx : Ctx :=
  { staticFile := fun _ => none, decodeJwt := fun _ => none,
    sign := fun _ => none, serialize := fun _ => "null" }

/-- Service for the C2 fixture. -/
def c2svc : ServiceM :=
  { routes := [("r", { definitions := [(Method.GET, c2handler)] })]
    route_tree := create_route_tree ["r"]
    functions := [("f", { parameters := [], execute := fun _ => .ok JsonVal.null })] }

/-- Request with a raw (non-JSON, non-form) body hitting the SQL-bound
route. -/
def c2req : PicoRequestM :=
  { method := .GET, path := "/r", query := [], version := "HTTP/1.1",
    headers := [], body := .raw [1, 2] }

/-- C2: the code panics on a single request in two reachable places, so the
claim that request handling never panics fails on the code.  First: shaping
a server-function result of exactly one row evaluates `results[1]` on a
length-one vector (src/src/sql/mod.rs:79), an out-of-bounds index (`none`
models the panic).  Second: a raw body bound to a server function reaches
`todo!()` (src/src/lib.rs:612-615) and the whole pipeline aborts. -/
theorem c2_panics :
    Sproc.execute { sql := "SELECT pong(1)", parameters := ["x"] }
      [("x", JsonVal.num 1)]
      (fun _ => .ok [[("message", some (JsonVal.str "pong"))]]) = none ∧
    handle_http_pico_request c2ctx c2svc c2req = none :=
  ⟨rfl, rfl⟩

/-! ## Claim C3: the declared content-length is not honoured -/

/-- C3: the body-read phase contradicts the claim.  With `content-length:
10` and only 3 bytes captured past the header terminator, the inverted
guard (`read_len > content_length`, src/src/http/mod.rs:248) skips reading
even though 7 more bytes are available, and the request succeeds with a
truncated 3-byte body instead of collecting the declared bytes or failing
`BadRequest`.  Conversely with `content-length: 3` and 5 captured bytes the
code reads up to 3 additional bytes it was never asked for.  The third
conjunct shows the full parse terminating `Ok` with the truncated raw
body. -/
theorem c3_truncated_body :
    readBodyPhase [("content-length", ["10"])] [97, 98, 99]
      [[100, 101, 102, 103, 104, 105, 106]] = .ok [97, 98, 99] ∧
    readBodyPhase [("content-length", ["3"])] [1, 2, 3, 4, 5]
      [[9, 9, 9, 9]] = .ok [1, 2, 3, 4, 5, 9, 9, 9] ∧
    (parse_to_pico_request (fun _ => none) (fun _ => [])
      { method := "GET", path := "/p", version := "HTTP/1.1",
        headers := [("content-length", ["10"]), ("content-type", ["text/plain"])] }
      [97, 98, 99] [[100, 101, 102, 103, 104, 105, 106]]).toOption.map
        (fun r => match r.body with | Body.raw l => some l | _ => none) =
      some (some [97, 98, 99]) :=
  ⟨rfl, rfl, rfl⟩

/-! ## Claim C10: body classification by content type -/

/-- C10 counterexample: the misspelled `"mutipart/form-data"` arm leaves
the body at its `Json(Null)` initialization, so that content-type value is
not passed through as raw bytes, contradicting the claim's "every other
content-type value yields the raw body bytes". -/
theorem c10_counterexample :
    classifyBody (fun _ => none) (fun _ => []) "mutipart/form-data" [97] =
      Body.json JsonVal.null ∧
    classifyBody (fun _ => none) (fun _ => []) "mutipart/form-data" [97] ≠
      Body.raw [97] :=
  ⟨rfl, fun h => Body.noConfusion (show Body.json JsonVal.null = Body.raw [97] from h)⟩

/-- C10 amended: classification follows the content-type value exactly:
`application/json` parses as JSON with a parse failure degrading to a JSON
null body; `application/x-www-form-urlencoded` decodes into a flat string
map; the literal `"mutipart/form-data"` yields a JSON null body; and every
other value passes the raw bytes through untouched. -/
theorem c10_classification (pj : List Nat → Option JsonVal)
    (pf : List Nat → List (String × String)) (ct : String) (bytes : List Nat) :
    (ct = "application/json" →
      classifyBody pj pf ct bytes = .json ((pj bytes).getD .null)) ∧
    (ct = "application/x-www-form-urlencoded" →
      classifyBody pj pf ct bytes = .form (pf bytes)) ∧
    (ct = "mutipart/form-data" →
      classifyBody pj pf ct bytes = .json .null) ∧
    (ct ≠ "application/json" → ct ≠ "application/x-www-form-urlencoded" →
      ct ≠ "mutipart/form-data" →
      classifyBody pj pf ct bytes = .raw bytes) := by
  refine ⟨?_, ?_, ?_, ?_⟩
  · intro h; subst h; rfl
  · intro h; subst h; rfl
  · intro h; subst h; rfl
  · intro h1 h2 h3
    simp [classifyBody, h1, h2, h3]

/-- Witness for C10 at a concrete pass-through content type. -/
theorem c10_classification_witness :
    classifyBody (fun _ => none) (fun _ => []) "text/plain" [104, 105] =
      Body.raw [104, 105] :=
  (c10_classification (fun _ => none) (fun _ => []) "text/plain" [104, 105]).2.2.2
    (by decide) (by decide) (by decide)

/-! ## Claim C4: the set-session step -/

/-- Hook returning a Lua value that `Lua::from_value` cannot convert. -/
def c4hookBad : LuaFun :=
  { call2 := fun _ _ => .error (.otherError "unused"),
    call1 := fun _ => .ok (.noJson "function") }

/-- C4 counterexample: a set-session hook that succeeds but returns a value
failing claims conversion makes the pipeline terminal with
`InternalError` (src/src/lib.rs:753-762), contradicting the claim that
every non-user-error failure in this step is logged and ignored. -/
theorem c4_counterexample :
    setJwtStep (fun _ => some "T") (some c4hookBad) (JsonVal.num 1) none =
      .error (PicoResponse.error .InternalError "JWT claims conversion failed") :=
  rfl

/-- C4 amended: on hook success with convertible claims and successful
signing, a `Set-Cookie` header is attached and the in-flight claims are
replaced; a user-level hook error is terminal `Unauthorized`; any other
hook call failure is ignored; a signing failure is ignored (cookie omitted,
claims kept); but a claims-conversion failure is terminal `InternalError`
rather than ignored. -/
theorem c4_set_session (sign : JsonVal → Option String) (hook : LuaFun)
    (json_body : JsonVal) (jwt_claims : Option JsonVal) (lb lv : LuaVal)
    (e : LuaErr) (c : JsonVal) (jwt msg : String)
    (hlb : lb = luaBodyOf json_body) :
    (hook.call1 lb = .ok lv → luaFromValue lv = .ok c → sign c = some jwt → jwt ≠ "" →
      setJwtStep sign (some hook) json_body jwt_claims =
        .ok ([("Set-Cookie", ["pico_jwt=" ++ jwt ++ "; HttpOnly; Path=/;"])], some c)) ∧
    (hook.call1 lb = .error e → is_user_lua_error e = true →
      setJwtStep sign (some hook) json_body jwt_claims =
        .error (PicoResponse.error .Unauthorized (extract_lua_error_message e))) ∧
    (hook.call1 lb = .error e → is_user_lua_error e = false →
      setJwtStep sign (some hook) json_body jwt_claims = .ok ([], jwt_claims)) ∧
    (hook.call1 lb = .ok lv → luaFromValue lv = .ok c → sign c = none →
      setJwtStep sign (some hook) json_body jwt_claims = .ok ([], jwt_claims)) ∧
    (hook.call1 lb = .ok lv → luaFromValue lv = .error msg →
      setJwtStep sign (some hook) json_body jwt_claims =
        .error (PicoResponse.error .InternalError "JWT claims conversion failed")) := by
  subst hlb
  refine ⟨?_, ?_, ?_, ?_, ?_⟩
  · intro hcall hconv hsign hne
    simp only [setJwtStep, hcall, hconv, hsign]
    rw [if_pos]
    exact bne_iff_ne.mpr hne
  · intro hcall huser
    simp [setJwtStep, hcall, huser]
  · intro hcall huser
    simp [setJwtStep, hcall, huser]
  · intro hcall hconv hsign
    simp [setJwtStep, hcall, hconv, hsign]
  · intro hcall hconv
    simp [setJwtStep, hcall, hconv]

/-- Witness for C4: a successful hook with convertible claims and a signer
attaches the cookie and replaces the claims. -/
theorem c4_set_session_witness :
    setJwtStep (fun _ => some "TOK")
      (some { call2 := fun _ _ => .error (.otherError "unused"),
              call1 := fun _ => .ok (.json (JsonVal.str "alice")) })
      (JsonVal.num 1) none =
      .ok ([("Set-Cookie", ["pico_jwt=TOK; HttpOnly; Path=/;"])],
        some (JsonVal.str "alice")) :=
  (c4_set_session (fun _ => some "TOK")
      { call2 := fun _ _ => .error (.otherError "unused"),
        call1 := fun _ => .ok (.json (JsonVal.str "alice")) }
      (JsonVal.num 1) none (LuaVal.json (JsonVal.num 1))
      (LuaVal.json (JsonVal.str "alice")) (.otherError "unused")
      (JsonVal.str "alice") "TOK" "" rfl).1 rfl rfl rfl (by decide)

/-! ## Claim C5: content negotiation -/

/-- Pipeline capabilities for the C5 fixture. -/
def c5ctx : Ctx :=
  { staticFile := fun _ => none, decodeJwt := fun _ => none,
    sign := fun _ => none, serialize := fun _ => "null" }

/-- Handler that declares a view. -/
def c5handler : RouteHandlerM :=
  { view := some { render := fun _ => "HTML" }, sql_function_name := none,
    set_jwt := none, pre_process := none, post_process := none }

/-- Service for the C5 fixture. -/
def c5svc : ServiceM :=
  { routes := [("v", { definitions := [(Method.GET, c5handler)] })]
    route_tree := create_route_tree ["v"]
    functions := [] }

/-- Request with a truthy fragment marker but no `Accept` header at all. -/
def c5req : PicoRequestM :=
  { method := .GET, path := "/v", query := [], version := "HTTP/1.1",
    headers := [("hx-request", ["true"])], body := .json .null }

/-- C5 counterexample: for a successful run with a truthy fragment-request
marker, a declared view, and no `Accept` header, the response carries no
`Content-Type` header at all (and the body is the JSON serialization) —
the whole negotiation block is guarded by the presence of `accept`
(src/src/lib.rs:849), so neither the claimed `text/html` nor the claimed
`application/json` header is produced. -/
theorem c5_counterexample :
    alGet c5req.headers "hx-request" = some ["true"] ∧
    c5handler.view.isSome = true ∧
    (handle_http_pico_request c5ctx c5svc c5req).map
      (fun r => alGet r.headers "Content-Type") = some none :=
  ⟨rfl, rfl, rfl⟩

/-- C5 amended: when an `Accept` header is present, the first accept value
`text/html` or a first `hx-request` value `"true"` selects the declared
view rendered as `text/html`; the same trigger without a view, or no
trigger, selects the JSON serialization with `application/json`; when no
`Accept` header is present at all the body is still the JSON serialization
but no `Content-Type` header is attached. -/
theorem c5_render (ctx : Ctx) (request : PicoRequestM) (handler : RouteHandlerM)
    (headers0 : List (String × List String)) (json_body : JsonVal)
    (accept_headers : List String) (view : ViewT) :
    (alGet request.headers "accept" = some accept_headers →
      ((accept_headers.head?.getD "") == "text/html"
        || ((alGet request.headers "hx-request").getD []).head? == some "true") = true →
      handler.view = some view →
      finalize ctx request handler headers0 json_body =
        { status := .Ok, body := view.render json_body,
          headers := alInsert (alInsert headers0 "Content-Type" ["text/html"])
            "Content-Length" [toString (view.render json_body).length] }) ∧
    (alGet request.headers "accept" = some accept_headers →
      ((accept_headers.head?.getD "") == "text/html"
        || ((alGet request.headers "hx-request").getD []).head? == some "true") = true →
      handler.view = none →
      finalize ctx request handler headers0 json_body =
        { status := .Ok, body := ctx.serialize json_body,
          headers := alInsert (alInsert headers0 "Content-Type" ["application/json"])
            "Content-Length" [toString (ctx.serialize json_body).length] }) ∧
    (alGet request.headers "accept" = some accept_headers →
      ((accept_headers.head?.getD "") == "text/html"
        || ((alGet request.headers "hx-request").getD []).head? == some "true") = false →
      finalize ctx request handler headers0 json_body =
        { status := .Ok, body := ctx.serialize json_body,
          headers := alInsert (alInsert headers0 "Content-Type" ["application/json"])
            "Content-Length" [toString (ctx.serialize json_body).length] }) ∧
    (alGet request.headers "accept" = none →
      finalize ctx request handler headers0 json_body =
        { status := .Ok, body := ctx.serialize json_body,
          headers := alInsert headers0 "Content-Length"
            [toString (ctx.serialize json_body).length] }) := by
  refine ⟨?_, ?_, ?_, ?_⟩
  · intro haccept htrig hview
    simp [finalize, haccept, htrig, hview]
  · intro haccept htrig hview
    simp [finalize, haccept, htrig, hview]
  · intro haccept htrig
    simp [finalize, haccept, htrig]
  · intro haccept
    simp [finalize, haccept]

/-- Witness for C5: `Accept: text/html` with a declared view renders the
view with `Content-Type: text/html`. -/
theorem c5_render_witness :
    finalize c5ctx
      { method := .GET, path := "/v", query := [], version := "HTTP/1.1",
        headers := [("accept", ["text/html"])], body := .json .null }
      c5handler [] JsonVal.null =
      { status := .Ok, body := "HTML",
        headers := [("Content-Type", ["text/html"]), ("Content-Length", ["4"])] } :=
  (c5_render c5ctx
    { method := .GET, path := "/v", query := [], version := "HTTP/1.1",
      headers := [("accept", ["text/html"])], body := .json .null }
    c5handler [] JsonVal.null ["text/html"] { render := fun _ => "HTML" }).1
    rfl (by decide) rfl

/-! ## Claim C8: pre-process hook error handling -/

/-- Mapping the replace-at-key function over a list whose keys avoid `k`
changes nothing. -/
theorem map_keep_of_not_mem [BEq κ] [LawfulBEq κ] :
    ∀ (t : List (κ × α)) (k : κ) (v : α), k ∉ t.map Prod.fst →
      t.map (fun p => if p.1 == k then (k, v) else p) = t := by
  intro t k v h
  induction t with
  | nil => rfl
  | cons a t ih =>
    rw [List.map_cons] at h
    have h1 : k ≠ a.1 := fun hk => h (by rw [hk]; exact List.mem_cons_self _ _)
    have h2 : k ∉ t.map Prod.fst := fun hk => h (List.mem_cons_of_mem _ hk)
    rw [List.map_cons, ih h2]
    congr 1
    have hb : (a.1 == k) = false := beq_eq_false_iff_ne.mpr (fun hh => h1 hh.symm)
    simp [hb]

/-- Replacing an entry by itself (under duplicate-free keys) is the
identity. -/
theorem map_insert_of_mem_nodup [BEq κ] [LawfulBEq κ] :
    ∀ (m : List (κ × α)) (k : κ) (v : α),
      (k, v) ∈ m → (m.map Prod.fst).Nodup →
      m.map (fun p => if p.1 == k then (k, v) else p) = m := by
  intro m k v hmem hnd
  induction m with
  | nil => cases hmem
  | cons a t ih =>
    rw [List.map_cons] at hnd
    have hhead : a.1 ∉ t.map Prod.fst := (List.nodup_cons.mp hnd).1
    have hndt := (List.nodup_cons.mp hnd).2
    cases hmem with
    | head =>
      rw [List.map_cons]
      congr 1
      · simp
      · exact map_keep_of_not_mem t k v hhead
    | tail _ hmemt =>
      have hk_mem : k ∈ t.map Prod.fst := List.mem_map.mpr ⟨(k, v), hmemt, rfl⟩
      have hne : a.1 ≠ k := fun hh => hhead (hh ▸ hk_mem)
      rw [List.map_cons]
      congr 1
      · have hb : (a.1 == k) = false := beq_eq_false_iff_ne.mpr hne
        simp [hb]
      · exact ih hmemt hndt

/-- Reinserting an entry that is already present (under duplicate-free
keys) leaves the association list unchanged. -/
theorem alInsert_of_mem_nodup [BEq κ] [LawfulBEq κ]
    (m : List (κ × α)) (k : κ) (v : α)
    (hmem : (k, v) ∈ m) (hnd : (m.map Prod.fst).Nodup) : alInsert m k v = m := by
  unfold alInsert
  rw [if_pos]
  · exact map_insert_of_mem_nodup m k v hmem hnd
  · rw [List.any_eq_true]
    exact ⟨(k, v), hmem, by simp⟩

/-- Folding its own entries back into a duplicate-free association list is
the identity. -/
theorem foldl_alInsert_mem [BEq κ] [LawfulBEq κ] :
    ∀ (l m : List (κ × α)), (m.map Prod.fst).Nodup → (∀ p ∈ l, p ∈ m) →
      l.foldl (fun acc p => alInsert acc p.1 p.2) m = m := by
  intro l
  induction l with
  | nil => intro m _ _; rfl
  | cons p t ih =>
    intro m hnd hsub
    rw [List.foldl_cons,
      alInsert_of_mem_nodup m p.1 p.2 (hsub p (List.mem_cons_self _ _)) hnd]
    exact ih m hnd (fun q hq => hsub q (List.mem_cons_of_mem _ hq))

/-- C8: for a handler with a pre-process hook bound to a server function,
a user-level hook error terminates the pipeline with `BadRequest` carrying
the hook's extracted message — and since `exec` is universally quantified
and absent from the conclusion, the bound server function is never
invoked; any other hook call failure makes the pre-process step a no-op
(the merged input is returned unchanged) and the pipeline continues. -/
theorem c8_preprocess (ctx : Ctx) (svc : ServiceM) (request : PicoRequestM)
    (key : String) (binds : List (String × String)) (route : RouteM)
    (handler : RouteHandlerM) (file_name : String) (params : List String)
    (exec : List (String × JsonVal) → Except ResponseCode JsonVal)
    (f : LuaFun) (input : List (String × JsonVal)) (jc : Option JsonVal) (e : LuaErr)
    (hres : resolveRoute ctx.staticFile svc.route_tree request.path = .matched key binds)
    (hroute : alGet svc.routes key = some route)
    (hmeth : alGet route.definitions request.method = some handler)
    (hsql : handler.sql_function_name = some file_name)
    (hfn : alGet svc.functions (stripSuffix file_name ".sql") =
      some { parameters := params, execute := exec })
    (hpre : handler.pre_process = some f)
    (hbuild : buildFunctionInput request.body binds = some input)
    (hjc : extract_jwt_claims ctx.decodeJwt request.headers = jc)
    (hcall : call_lua_function_with_optional_jwt f (LuaVal.json (JsonVal.obj input))
      (luaJwtOf jc) = .error e) :
    (is_user_lua_error e = true →
      handle_http_pico_request ctx svc request =
        some (PicoResponse.error .BadRequest (extract_lua_error_message e))) ∧
    (is_user_lua_error e = false → (input.map Prod.fst).Nodup →
      preProcessStep (some f) input jc = .ok input) := by
  constructor
  · intro huser
    simp only [handle_http_pico_request, hres, hroute, hmeth, hjc, invokePhase,
      hsql, hfn, hbuild, preProcessStep, hpre, hcall, huser, if_true]
  · intro huser hnd
    simp only [preProcessStep, hcall, huser, Bool.false_eq_true, if_false,
      mergePreprocessed, luaFromValue]
    exact congrArg Except.ok (foldl_alInsert_mem input input hnd (fun p hp => hp))

/-- Hook raising a user-level Lua error. -/
def c8fUser : LuaFun :=
  { call2 := fun _ _ => .error (.runtimeError "error: boom"),
    call1 := fun _ => .error (.runtimeError "error: boom") }

/-- Hook failing with a system (non-user) error. -/
def c8fSys : LuaFun :=
  { call2 := fun _ _ => .error (.otherError "sys"),
    call1 := fun _ => .error (.otherError "sys") }

/-- Capabilities for the C8 fixtures. -/
def c8ctx : Ctx :=
  { staticFile := fun _ => none, decodeJwt := fun _ => none,
    sign := fun _ => none, serialize := fun _ => "null" }

/-- Handler whose pre-process hook raises a user error. -/
def c8handler : RouteHandlerM :=
  { view := none, sql_function_name := some "g.sql", set_jwt := none,
    pre_process := some c8fUser, post_process := none }

/-- Service with the user-error hook in front of a SQL function. -/
def c8svc : ServiceM :=
  { routes := [("r", { definitions := [(Method.GET, c8handler)] })]
    route_tree := create_route_tree ["r"]
    functions := [("g", { parameters := ["x"], execute := fun _ => .ok (.num 5) })] }

/-- Request carrying the parameter in a JSON body. -/
def c8req : PicoRequestM :=
  { method := .GET, path := "/r", query := [], version := "HTTP/1.1",
    headers := [], body := .json (.obj [("x", .num 1)]) }

/-- Handler whose pre-process hook fails with a system error. -/
def c8handlerSys : RouteHandlerM :=
  { view := none, sql_function_name := some "g.sql", set_jwt := none,
    pre_process := some c8fSys, post_process := none }

/-- Service identical to `c8svc` but with the system-error hook. -/
def c8svc2 : ServiceM :=
  { routes := [("r", { definitions := [(Method.GET, c8handlerSys)] })]
    route_tree := create_route_tree ["r"]
    functions := [("g", { parameters := ["a"], execute := fun _ => .ok (.num 5) })] }

/-- Request for the system-error fixture. -/
def c8req2 : PicoRequestM :=
  { method := .GET, path := "/r", query := [], version := "HTTP/1.1",
    headers := [], body := .json (.obj [("a", .num 1)]) }

/-- Witness for C8: the user-error hook terminates the pipeline with
`BadRequest "boom"`, and the system-error hook leaves the merged input
unchanged. -/
theorem c8_preprocess_witness :
    handle_http_pico_request c8ctx c8svc c8req =
      some (PicoResponse.error .BadRequest "boom") ∧
    preProcessStep (some c8fSys) [("a", JsonVal.num 1)] none =
      .ok [("a", JsonVal.num 1)] :=
  ⟨(c8_preprocess c8ctx c8svc c8req "r" [] _ c8handler "g.sql" ["x"]
      (fun _ => .ok (.num 5)) c8fUser [("x", JsonVal.num 1)] none
      (.runtimeError "error: boom")
      rfl rfl rfl rfl rfl rfl rfl rfl rfl).1 rfl,
   (c8_preprocess c8ctx c8svc2 c8req2 "r" [] _ c8handlerSys "g.sql" ["a"]
      (fun _ => .ok (.num 5)) c8fSys [("a", JsonVal.num 1)] none
      (.otherError "sys")
      rfl rfl rfl rfl rfl rfl rfl rfl rfl).2 rfl (by decide)⟩

/-! ## Claim C9: header-size ceiling -/

/-- The terminator check is monotone under appending bytes on the right. -/
theorem containsTerm_append (l t : List Nat) (h : containsTerm l = true) :
    containsTerm (l ++ t) = true := by
  induction l with
  | nil => simp [containsTerm] at h
  | cons a r ih =>
    rw [containsTerm] at h
    rcases Bool.or_eq_true_iff.mp h with htake | hrest
    · have heq : (a :: r).take 4 = crlfcrlf := by
        exact eq_of_beq htake
      have hlen : 4 ≤ (a :: r).length := by
        have h2 := congrArg List.length heq
        rw [List.length_take] at h2
        have h3 : crlfcrlf.length = 4 := rfl
        rw [h3] at h2
        omega
      have htake2 : ((a :: r) ++ t).take 4 = (a :: r).take 4 := by
        rw [List.take_append_eq_append_take]
        have : 4 - (a :: r).length = 0 := by omega
        rw [this]
        simp
      show containsTerm ((a :: r) ++ t) = true
      rw [List.cons_append, containsTerm, ← List.cons_append, htake2, heq]
      simp
    · have := ih hrest
      show containsTerm ((a :: r) ++ t) = true
      rw [List.cons_append, containsTerm, this]
      simp

/-- Contrapositive form of `containsTerm_append`. -/
theorem containsTerm_prefix_false (l t : List Nat)
    (h : containsTerm (l ++ t) = false) : containsTerm l = false := by
  by_contra hne
  have : containsTerm l = true := by
    cases hcl : containsTerm l
    · exact absurd hcl hne
    · rfl
  rw [containsTerm_append l t this] at h
  cases h

/-- Core loop property behind C9: starting from a small terminator-free
buffer, if some prefix of the reads is nonempty, terminator-free, and
pushes the accumulated buffer past the ceiling, the loop fails with
`HeaderFieldsTooLarge` — in particular never with `BadRequest`. -/
theorem headerReadLoop_431 :
    ∀ (chunks : List (List Nat)) (buf : List Nat) (pfx : Nat),
      buf.length ≤ MAX_HEADER_SIZE → containsTerm buf = false →
      pfx ≤ chunks.length → (∀ c ∈ chunks.take pfx, c ≠ []) →
      containsTerm (buf ++ (chunks.take pfx).flatten) = false →
      MAX_HEADER_SIZE < (buf ++ (chunks.take pfx).flatten).length →
      headerReadLoop buf chunks = .error .HeaderFieldsTooLarge := by
  intro chunks
  induction chunks with
  | nil =>
    intro buf pfx h1 _ _ _ _ h6
    simp only [List.take_nil, List.flatten_nil, List.append_nil] at h6
    omega
  | cons c rest ih =>
    intro buf pfx h1 h2 h3 h4 h5 h6
    cases pfx with
    | zero =>
      simp only [List.take_zero, List.flatten_nil, List.append_nil] at h6
      omega
    | succ n =>
      rw [List.take_succ_cons] at h5 h6
      rw [List.flatten_cons, ← List.append_assoc] at h5 h6
      have hc : c ≠ [] := h4 c (by rw [List.take_succ_cons]; exact List.mem_cons_self _ _)
      have hclen : (c.length == 0) = false := by
        rw [beq_eq_false_iff_ne]
        exact fun h0 => hc (List.length_eq_zero.mp h0)
      have hterm : containsTerm (buf ++ c) = false :=
        containsTerm_prefix_false (buf ++ c) ((rest.take n).flatten) h5
      rw [headerReadLoop, hclen]
      simp only [Bool.false_eq_true, if_false, hterm]
      by_cases hlen : MAX_HEADER_SIZE < (buf ++ c).length
      · rw [if_pos hlen]
      · rw [if_neg hlen]
        exact ih (buf ++ c) n (Nat.le_of_not_lt hlen) hterm
          (Nat.le_of_succ_le_succ h3)
          (fun c2 hc2 => h4 c2 (by rw [List.take_succ_cons]; exact List.mem_cons_of_mem _ hc2))
          h5 h6

/-- C9 amended (first half of the claim, which holds): whenever the
accumulated header buffer exceeds the fixed ceiling before the
`\r\n\r\n` terminator has appeared, the wire reader fails with
`HeaderFieldsTooLarge` — never `BadRequest`. -/
theorem c9_header_ceiling (chunks : List (List Nat)) (pfx : Nat)
    (h3 : pfx ≤ chunks.length) (h4 : ∀ c ∈ chunks.take pfx, c ≠ [])
    (h5 : containsTerm ((chunks.take pfx).flatten) = false)
    (h6 : MAX_HEADER_SIZE < ((chunks.take pfx).flatten).length) :
    headerReadLoop [] chunks = .error .HeaderFieldsTooLarge := by
  apply headerReadLoop_431 chunks [] pfx
  · simp [MAX_HEADER_SIZE]
  · rfl
  · exact h3
  · exact h4
  · rw [List.nil_append]; exact h5
  · rw [List.nil_append]; exact h6

/-- A run of `a` bytes never contains the CRLF-CRLF terminator. -/
theorem containsTerm_replicate_97 : ∀ n, containsTerm (List.replicate n 97) = false := by
  intro n
  induction n with
  | zero => rfl
  | succ n ih =>
    rw [List.replicate_succ, containsTerm, ih]
    have hb : ((97 :: List.replicate n 97).take 4 == crlfcrlf) = false := by
      rw [beq_eq_false_iff_ne]
      intro h
      rw [List.take_succ_cons] at h
      simp [crlfcrlf] at h
    rw [hb]
    rfl

/-- Witness for C9: two reads totalling 1100 terminator-free bytes (each
within the 1024-byte read buffer) fail with `HeaderFieldsTooLarge`. -/
theorem c9_header_ceiling_witness :
    headerReadLoop [] [List.replicate 1000 97, List.replicate 100 97] =
      .error .HeaderFieldsTooLarge := by
  have hform : (List.take 2
      [List.replicate 1000 (97 : Nat), List.replicate 100 (97 : Nat)]).flatten =
      List.replicate 1000 (97 : Nat) ++ (List.replicate 100 (97 : Nat) ++ []) := rfl
  apply c9_header_ceiling [List.replicate 1000 97, List.replicate 100 97] 2
  · exact Nat.le_refl 2
  · intro c hc
    have hc3 : c ∈ [List.replicate 1000 (97 : Nat), List.replicate 100 (97 : Nat)] := hc
    have hc2 : c = List.replicate 1000 (97 : Nat) ∨ c = List.replicate 100 (97 : Nat) := by
      rcases List.mem_cons.mp hc3 with h | h2
      · exact Or.inl h
      · exact Or.inr (List.mem_singleton.mp h2)
    intro h0
    have h1 := congrArg List.length h0
    rw [List.length_nil] at h1
    rcases hc2 with h | h
    · rw [h, List.length_replicate] at h1
      exact absurd h1 (by decide)
    · rw [h, List.length_replicate] at h1
      exact absurd h1 (by decide)
  · rw [hform, List.append_nil, ← List.replicate_add]
    exact containsTerm_replicate_97 (1000 + 100)
  · rw [hform, List.append_nil, ← List.replicate_add, List.length_replicate]
    decide

/-- C9 counterexample (second half of the claim fails): a request whose
declared `content-length` (5000) far exceeds the ceiling but whose header
bytes stay under it is framed successfully — the declared length plays no
role in the header phase, so the request does not fail with
`HeaderFieldsTooLarge` (nor at all). -/
theorem c9_counterexample :
    exOk (handle_stream (fun _ => none) (fun _ => [])
      [strToBytes "POST /u HTTP/1.1\r\ncontent-length: 5000\r\n\r\nab"]) = true ∧
    handle_stream (fun _ => none) (fun _ => [])
      [strToBytes "POST /u HTTP/1.1\r\ncontent-length: 5000\r\n\r\nab"] ≠
      .error .HeaderFieldsTooLarge :=
  ⟨rfl, fun h => Bool.noConfusion (show true = false from congrArg exOk h)⟩

/-! ## Claim C1: resolution order between literals, wildcards and static files -/

/-- Inserting into an association list never shrinks it. -/
theorem alInsert_length_le [BEq κ] (m : List (κ × α)) (k : κ) (v : α) :
    m.length ≤ (alInsert m k v).length := by
  unfold alInsert
  split
  · rw [List.length_map]
  · rw [List.length_append]
    omega

/-- Along the walk, the bindings map never shrinks. -/
theorem resolveWalk_matched_length :
    ∀ (segs : List String) (t : RouteTree) (sF : String → Option String)
      (path key : String) (binds : List (String × String)) (k2 : String)
      (b2 : List (String × String)),
      resolveWalk sF path segs t key binds = .matched k2 b2 →
      binds.length ≤ b2.length := by
  intro segs
  induction segs with
  | nil =>
    intro t sF path key binds k2 b2 h
    rw [resolveWalk] at h
    cases h
    exact Nat.le_refl _
  | cons seg rest ih =>
    intro t sF path key binds k2 b2 h
    rw [resolveWalk] at h
    cases hc : t.findChild seg with
    | some sub =>
      rw [hc] at h
      exact ih _ _ _ _ _ _ _ h
    | none =>
      rw [hc] at h
      cases hs : sF path with
      | some resp => rw [hs] at h; cases h
      | none =>
        rw [hs] at h
        cases hw : t.findChild "*" with
        | some sub =>
          rw [hw] at h
          exact Nat.le_trans (alInsert_length_le binds sub.parameter_name seg)
            (ih _ _ _ _ _ _ _ h)
        | none => rw [hw] at h; cases h

/-- A walk that succeeds through literal children only (empty bindings)
never consults the static capability or a wildcard. -/
theorem resolveWalk_literal_static :
    ∀ (segs : List String) (t : RouteTree) (sF : String → Option String)
      (path key k2 : String),
      resolveWalk (fun _ => none) path segs t key [] = .matched k2 [] →
      resolveWalk sF path segs t key [] = .matched k2 [] := by
  intro segs
  induction segs with
  | nil => intro t sF path key k2 h; exact h
  | cons seg rest ih =>
    intro t sF path key k2 h
    rw [resolveWalk] at h ⊢
    cases hc : t.findChild seg with
    | some sub =>
      rw [hc] at h
      exact ih _ _ _ _ _ h
    | none =>
      rw [hc] at h
      cases hw : t.findChild "*" with
      | some sub =>
        rw [hw] at h
        have := resolveWalk_matched_length rest sub (fun _ => none) path _
          (alInsert [] sub.parameter_name seg) k2 [] h
        simp [alInsert] at this
      | none => rw [hw] at h; cases h

/-- When the no-static walk would use a wildcard somewhere (bindings grow),
a walk with a static hit returns the static response instead. -/
theorem resolveWalk_wildcard_static :
    ∀ (segs : List String) (t : RouteTree) (path key : String)
      (binds : List (String × String)) (k2 : String)
      (b2 : List (String × String)) (sF : String → Option String) (b : String),
      sF path = some b →
      resolveWalk (fun _ => none) path segs t key binds = .matched k2 b2 →
      binds.length < b2.length →
      resolveWalk sF path segs t key binds = .static b := by
  intro segs
  induction segs with
  | nil =>
    intro t path key binds k2 b2 sF b hsf h hlt
    rw [resolveWalk] at h
    cases h
    exact absurd hlt (Nat.lt_irrefl _)
  | cons seg rest ih =>
    intro t path key binds k2 b2 sF b hsf h hlt
    rw [resolveWalk] at h ⊢
    cases hc : t.findChild seg with
    | some sub =>
      rw [hc] at h
      exact ih _ _ _ _ _ _ _ _ hsf h hlt
    | none =>
      rw [hsf]

/-- When the no-static walk fails, a walk with a static hit returns the
static response. -/
theorem resolveWalk_notFound_static :
    ∀ (segs : List String) (t : RouteTree) (path key : String)
      (binds : List (String × String)) (sF : String → Option String) (b : String),
      sF path = some b →
      resolveWalk (fun _ => none) path segs t key binds = .notFound →
      resolveWalk sF path segs t key binds = .static b := by
  intro segs
  induction segs with
  | nil =>
    intro t path key binds sF b hsf h
    rw [resolveWalk] at h
    cases h
  | cons seg rest ih =>
    intro t path key binds sF b hsf h
    rw [resolveWalk] at h ⊢
    cases hc : t.findChild seg with
    | some sub =>
      rw [hc] at h
      exact ih _ _ _ _ _ _ hsf h
    | none =>
      rw [hsf]

/-- A walk with no static hit at the request path coincides with the
no-static walk. -/
theorem resolveWalk_static_none :
    ∀ (segs : List String) (t : RouteTree) (path key : String)
      (binds : List (String × String)) (sF : String → Option String),
      sF path = none →
      resolveWalk sF path segs t key binds =
        resolveWalk (fun _ => none) path segs t key binds := by
  intro segs
  induction segs with
  | nil => intro t path key binds sF hsf; rfl
  | cons seg rest ih =>
    intro t path key binds sF hsf
    rw [resolveWalk, resolveWalk]
    cases hc : t.findChild seg with
    | some sub => exact ih _ _ _ _ _ hsf
    | none =>
      rw [hsf]
      cases hw : t.findChild "*" with
      | some sub => exact ih _ _ _ _ _ hsf
      | none => rfl

/-- C1 counterexample: with a registered wildcard route `users/:id`, the
request `/users/42` has a wildcard child available at the `42` segment, yet
the static-file capability is consulted first and its hit is returned — the
static fallback is not reserved for complete resolution failure. -/
theorem c1_counterexample :
    (((create_route_tree ["users/:id"]).findChild "users").bind
      (fun t => t.findChild "*")).isSome = true ∧
    resolveRoute (fun _ => some "FILE") (create_route_tree ["users/:id"])
      "/users/42" = .static "FILE" :=
  ⟨rfl, rfl⟩

/-- C1 amended: resolution prefers an exact-literal child at every segment
(a path resolving through literals alone is immune to both the static
capability and wildcards); on a literal miss the static-file fallback is
consulted BEFORE the wildcard child, so a static hit preempts any wildcard
route; the wildcard is descended only when the static lookup also fails;
and `NotFound` is reserved for the case where the wildcard is absent as
well. -/
theorem c1_resolution_order (tree : RouteTree) (path : String)
    (staticF : String → Option String) (b key : String)
    (binds : List (String × String)) :
    (resolveRoute (fun _ => none) tree path = .matched key [] →
      resolveRoute staticF tree path = .matched key []) ∧
    (staticF path = some b →
      resolveRoute (fun _ => none) tree path = .matched key binds → binds ≠ [] →
      resolveRoute staticF tree path = .static b) ∧
    (staticF path = some b →
      resolveRoute (fun _ => none) tree path = .notFound →
      resolveRoute staticF tree path = .static b) ∧
    (staticF path = none →
      resolveRoute staticF tree path = resolveRoute (fun _ => none) tree path) := by
  refine ⟨?_, ?_, ?_, ?_⟩
  · intro h
    exact resolveWalk_literal_static _ _ _ _ _ _ h
  · intro hsf h hne
    apply resolveWalk_wildcard_static _ _ _ _ _ _ _ _ _ hsf h
    have : 0 < binds.length := List.length_pos.mpr hne
    exact this
  · intro hsf h
    exact resolveWalk_notFound_static _ _ _ _ _ _ _ hsf h
  · intro hsf
    exact resolveWalk_static_none _ _ _ _ _ _ hsf

/-- Witness for C1: the registered wildcard route would match `/users/42`
(with a binding), but a static hit takes precedence. -/
theorem c1_resolution_order_witness :
    resolveRoute (fun _ => some "F") (create_route_tree ["users/:id"])
      "/users/42" = .static "F" :=
  (c1_resolution_order (create_route_tree ["users/:id"]) "/users/42"
    (fun _ => some "F") "F" "users/:id" [(":id", "42")]).2.1
    rfl rfl (by decide)

/-! ## Claim C6: literal and parameterized route resolution -/

/-- Trivial handler for the C6 fixture. -/
def c6handler : RouteHandlerM :=
  { view := none, sql_function_name := none, set_jwt := none,
    pre_process := none, post_process := none }

/-- Capabilities for the C6 fixture. -/
def c6ctx : Ctx :=
  { staticFile := fun _ => none, decodeJwt := fun _ => none,
    sign := fun _ => none, serialize := fun _ => "null" }

/-- Service with a route registered under the leading-slash path `/ping`. -/
def c6svc : ServiceM :=
  { routes := [("/ping", { definitions := [(Method.GET, c6handler)] })]
    route_tree := create_route_tree ["/ping"]
    functions := [] }

/-- Request exactly matching the registered path. -/
def c6req : PicoRequestM :=
  { method := .GET, path := "/ping", query := [], version := "HTTP/1.1",
    headers := [], body := .json .null }

/-- C6 counterexample: a route registered as `/ping` (with a leading slash,
as the spec's own examples write paths) is never resolvable — the walk
rebuilds the key as `ping` without the leading slash, the route-table
lookup misses, and the exactly matching request gets `NotFound` instead of
the registered handlers. -/
theorem c6_counterexample :
    (alGet c6svc.routes "/ping").isSome = true ∧
    handle_http_pico_request c6ctx c6svc c6req =
      some (PicoResponse.error .NotFound "Route not found") :=
  ⟨rfl, rfl⟩

/-- Invariant of constructed route trees: every literal child (key other
than `*`) carries its own key as its parameter name. -/
inductive TreeOK : RouteTree → Prop where
  | mk (pn : String) (children : List (String × RouteTree))
      (hname : ∀ k c, (k, c) ∈ children → k ≠ "*" → c.parameter_name = k)
      (hrec : ∀ k c, (k, c) ∈ children → TreeOK c) :
      TreeOK (.node pn children)

/-- Children of a well-formed tree are well formed and correctly named. -/
theorem TreeOK.child {t : RouteTree} {k : String} {c : RouteTree}
    (ht : TreeOK t) (hm : (k, c) ∈ t.nodes) :
    (k ≠ "*" → c.parameter_name = k) ∧ TreeOK c := by
  cases ht with
  | mk pn children hname hrec => exact ⟨hname k c hm, hrec k c hm⟩

/-- The root tree is well formed. -/
theorem TreeOK_empty : TreeOK (RouteTree.node "" []) :=
  TreeOK.mk _ _ (fun _ _ hm => absurd hm (List.not_mem_nil _))
    (fun _ _ hm => absurd hm (List.not_mem_nil _))

/-- A found child is a member of the node's child map. -/
theorem findChild_mem {t : RouteTree} {k : String} {c : RouteTree}
    (h : t.findChild k = some c) : (k, c) ∈ t.nodes := by
  unfold RouteTree.findChild alGet at h
  cases hf : t.nodes.find? (fun p => p.1 == k) with
  | none => rw [hf] at h; cases h
  | some p =>
    rw [hf] at h
    obtain ⟨p1, p2⟩ := p
    have hp1 : p1 = k := by
      have h2 := List.find?_some hf
      simpa using h2
    have hp2 : p2 = c := Option.some.inj h
    subst hp1
    subst hp2
    exact List.mem_of_find?_eq_some hf

/-- Membership in `setChild` comes from the new entry or the old list. -/
theorem setChild_mem :
    ∀ (l : List (String × RouteTree)) (key : String) (c : RouteTree)
      (k2 : String) (c2 : RouteTree),
      (k2, c2) ∈ setChild l key c → (k2 = key ∧ c2 = c) ∨ (k2, c2) ∈ l := by
  intro l key c
  induction l with
  | nil =>
    intro k2 c2 hm
    rw [setChild] at hm
    have h := List.mem_singleton.mp hm
    injection h with h1 h2
    exact Or.inl ⟨h1, h2⟩
  | cons a tl ih =>
    intro k2 c2 hm
    obtain ⟨a1, a2⟩ := a
    rw [setChild] at hm
    split at hm
    · next hbeq =>
      rcases List.mem_cons.mp hm with hhead | htail
      · injection hhead with h1 h2
        exact Or.inl ⟨h1.trans (eq_of_beq hbeq), h2⟩
      · exact Or.inr (List.mem_cons_of_mem _ htail)
    · next hbeq =>
      rcases List.mem_cons.mp hm with hhead | htail
      · rw [hhead]
        exact Or.inr (List.mem_cons_self _ _)
      · rcases ih k2 c2 htail with hnew | hold
        · exact Or.inl hnew
        · exact Or.inr (List.mem_cons_of_mem _ hold)

/-- Lookup after `setChild` at the written key. -/
theorem alGet_setChild_same :
    ∀ (l : List (String × RouteTree)) (key : String) (c : RouteTree),
      alGet (setChild l key c) key = some c := by
  intro l key c
  induction l with
  | nil =>
    rw [setChild]
    simp [alGet, List.find?]
  | cons a tl ih =>
    obtain ⟨a1, a2⟩ := a
    rw [setChild]
    split
    · next hbeq =>
      simp [alGet, List.find?, hbeq]
    · next hbeq =>
      have hb : (a1 == key) = false := by
        cases hval : (a1 == key)
        · rfl
        · exact absurd hval hbeq
      simpa [alGet, List.find?, hb] using ih

/-- Lookup after `setChild` at any other key. -/
theorem alGet_setChild_other :
    ∀ (l : List (String × RouteTree)) (key : String) (c : RouteTree) (k2 : String),
      k2 ≠ key → alGet (setChild l key c) k2 = alGet l k2 := by
  intro l key c
  induction l with
  | nil =>
    intro k2 hne
    rw [setChild]
    have hb : (key == k2) = false := by
      rw [beq_eq_false_iff_ne]
      exact fun h => hne h.symm
    simp [alGet, List.find?, hb]
  | cons a tl ih =>
    intro k2 hne
    obtain ⟨a1, a2⟩ := a
    rw [setChild]
    split
    · next hbeq =>
      have ha1 : a1 = key := eq_of_beq hbeq
      have hb : (a1 == k2) = false := by
        rw [beq_eq_false_iff_ne, ha1]
        exact fun h => hne h.symm
      simp [alGet, List.find?, hb]
    · next hbeq =>
      by_cases hk : (a1 == k2) = true
      · simp [alGet, List.find?, hk]
      · have hk2 : (a1 == k2) = false := by
          cases hval : (a1 == k2)
          · rfl
          · exact absurd hval hk
        simpa [alGet, List.find?, hk2] using ih k2 hne

/-- Insertion never changes a node's own parameter name. -/
theorem insertPath_parameter_name :
    ∀ (segs : List String) (t : RouteTree),
      (t.insertPath segs).parameter_name = t.parameter_name := by
  intro segs t
  cases segs with
  | nil => rfl
  | cons s rest =>
    cases t with
    | node pn children => rfl

/-- Rebuilding one child slot preserves the invariant. -/
theorem TreeOK_node_setChild (pn : String) (children : List (String × RouteTree))
    (key : String) (newc : RouteTree)
    (ht : TreeOK (.node pn children))
    (hpn : key ≠ "*" → newc.parameter_name = key)
    (hok : TreeOK newc) :
    TreeOK (.node pn (setChild children key newc)) := by
  refine TreeOK.mk _ _ ?_ ?_
  · intro k c hm
    rcases setChild_mem children key newc k c hm with ⟨hk, hc⟩ | hmem
    · subst hk
      subst hc
      exact hpn
    · exact (ht.child hmem).1
  · intro k c hm
    rcases setChild_mem children key newc k c hm with ⟨hk, hc⟩ | hmem
    · subst hk
      subst hc
      exact hok
    · exact (ht.child hmem).2

/-- Route insertion preserves the invariant. -/
theorem TreeOK_insertPath :
    ∀ (segs : List String) (t : RouteTree), TreeOK t → TreeOK (t.insertPath segs) := by
  intro segs
  induction segs with
  | nil => intro t ht; exact ht
  | cons seg rest ih =>
    intro t ht
    cases t with
    | node pn children =>
      simp only [RouteTree.insertPath]
      by_cases hs : strStartsWith seg ":" = true
      · rw [if_pos hs]
        cases hfc : RouteTree.findChild (RouteTree.node pn children) "*" with
        | some c0 =>
          refine TreeOK_node_setChild pn children "*" (c0.insertPath rest) ht ?_ ?_
          · intro hne; exact absurd rfl hne
          · exact ih c0 (ht.child (findChild_mem hfc)).2
        | none =>
          refine TreeOK_node_setChild pn children "*" _ ht ?_ ?_
          · intro hne; exact absurd rfl hne
          · exact ih _ (TreeOK.mk _ _ (fun _ _ hm => absurd hm (List.not_mem_nil _))
              (fun _ _ hm => absurd hm (List.not_mem_nil _)))
      · rw [if_neg hs]
        cases hfc : RouteTree.findChild (RouteTree.node pn children) seg with
        | some c0 =>
          refine TreeOK_node_setChild pn children seg (c0.insertPath rest) ht ?_ ?_
          · intro hne
            rw [insertPath_parameter_name]
            exact (ht.child (findChild_mem hfc)).1 hne
          · exact ih c0 (ht.child (findChild_mem hfc)).2
        | none =>
          refine TreeOK_node_setChild pn children seg _ ht ?_ ?_
          · intro _
            rw [insertPath_parameter_name]
            rfl
          · exact ih _ (TreeOK.mk _ _ (fun _ _ hm => absurd hm (List.not_mem_nil _))
              (fun _ _ hm => absurd hm (List.not_mem_nil _)))

/-- A chain of literal children matching the given segments, each carrying
its segment as parameter name. -/
def hasLitChain : RouteTree → List String → Prop
  | _, [] => True
  | t, s :: rest => ∃ c, t.findChild s = some c ∧ c.parameter_name = s ∧ hasLitChain c rest

/-- Segments of a plain literal route: no leading colon, and not the
wildcard key itself. -/
def litSegsOK (l : List String) : Bool :=
  l.all (fun s => !(strStartsWith s ":") && s != "*")

/-- Inserting a literal path creates its chain of literal children. -/
theorem hasLitChain_insertPath :
    ∀ (segs : List String) (t : RouteTree), TreeOK t → litSegsOK segs = true →
      hasLitChain (t.insertPath segs) segs := by
  intro segs
  induction segs with
  | nil => intro t _ _; trivial
  | cons seg rest ih =>
    intro t ht hok
    rw [litSegsOK, List.all_cons, Bool.and_eq_true] at hok
    obtain ⟨hok1, hokr⟩ := hok
    rw [Bool.and_eq_true] at hok1
    obtain ⟨hs1, hs2⟩ := hok1
    have hs : strStartsWith seg ":" = false := by simpa using hs1
    have hstar : seg ≠ "*" := by simpa using hs2
    cases t with
    | node pn children =>
      simp only [RouteTree.insertPath]
      rw [if_neg (by rw [hs]; exact Bool.false_ne_true)]
      cases hfc : RouteTree.findChild (RouteTree.node pn children) seg with
      | some c0 =>
        simp only [hasLitChain]
        refine ⟨c0.insertPath rest, ?_, ?_, ?_⟩
        · exact alGet_setChild_same children seg (c0.insertPath rest)
        · rw [insertPath_parameter_name]
          exact (ht.child (findChild_mem hfc)).1 hstar
        · exact ih c0 (ht.child (findChild_mem hfc)).2 hokr
      | none =>
        simp only [hasLitChain]
        refine ⟨(RouteTree.node seg []).insertPath rest, ?_, ?_, ?_⟩
        · exact alGet_setChild_same children seg _
        · rw [insertPath_parameter_name]
          rfl
        · exact ih _ (TreeOK.mk _ _ (fun _ _ hm => absurd hm (List.not_mem_nil _))
            (fun _ _ hm => absurd hm (List.not_mem_nil _))) hokr

/-- Later insertions (of any path) preserve an existing literal chain. -/
theorem hasLitChain_insertPath_other :
    ∀ (segs : List String) (t : RouteTree) (segs2 : List String),
      hasLitChain t segs → hasLitChain (t.insertPath segs2) segs := by
  intro segs
  induction segs with
  | nil => intro t segs2 _; trivial
  | cons s rest ih =>
    intro t segs2 hch
    simp only [hasLitChain] at hch ⊢
    obtain ⟨c, hfc, hpn, htail⟩ := hch
    cases segs2 with
    | nil => exact ⟨c, hfc, hpn, htail⟩
    | cons s2 rest2 =>
      cases t with
      | node pn children =>
        simp only [RouteTree.insertPath]
        by_cases heq : s = (if strStartsWith s2 ":" = true then "*" else s2)
        · rw [← heq, hfc]
          refine ⟨c.insertPath rest2, ?_, ?_, ?_⟩
          · exact alGet_setChild_same children s _
          · rw [insertPath_parameter_name]
            exact hpn
          · exact ih c rest2 htail
        · refine ⟨c, ?_, hpn, htail⟩
          show alGet (setChild children _ _) s = some c
          rw [alGet_setChild_other _ _ _ _ heq]
          exact hfc

/-- Folding further insertions preserves a literal chain. -/
theorem hasLitChain_foldl :
    ∀ (paths : List String) (t : RouteTree) (segs : List String),
      hasLitChain t segs →
      hasLitChain (paths.foldl (fun t2 p => t2.insertPath (splitSegments p)) t) segs := by
  intro paths
  induction paths with
  | nil => intro t segs h; exact h
  | cons q rest ih =>
    intro t segs h
    rw [List.foldl_cons]
    exact ih _ _ (hasLitChain_insertPath_other segs t (splitSegments q) h)

/-- The construction fold preserves the invariant. -/
theorem TreeOK_foldl :
    ∀ (paths : List String) (t : RouteTree), TreeOK t →
      TreeOK (paths.foldl (fun t2 p => t2.insertPath (splitSegments p)) t) := by
  intro paths
  induction paths with
  | nil => intro t ht; exact ht
  | cons q rest ih =>
    intro t ht
    rw [List.foldl_cons]
    exact ih _ (TreeOK_insertPath _ t ht)

/-- Every registered literal path has its chain in the constructed tree. -/
theorem hasLitChain_create :
    ∀ (paths : List String) (t : RouteTree) (p : String), TreeOK t → p ∈ paths →
      litSegsOK (splitSegments p) = true →
      hasLitChain (paths.foldl (fun t2 q => t2.insertPath (splitSegments q)) t)
        (splitSegments p) := by
  intro paths
  induction paths with
  | nil => intro t p _ hmem _; cases hmem
  | cons q rest ih =>
    intro t p ht hmem hok
    rw [List.foldl_cons]
    rcases List.mem_cons.mp hmem with heq | hmem2
    · subst heq
      exact hasLitChain_foldl rest _ _ (hasLitChain_insertPath (splitSegments p) t ht hok)
    · exact ih _ p (TreeOK_insertPath _ t ht) hmem2 hok

/-- Walking a literal chain matches, with the key rebuilt from the chain's
parameter names and the bindings untouched. -/
theorem resolveWalk_chain :
    ∀ (segs : List String) (t : RouteTree) (sF : String → Option String)
      (path key : String) (binds : List (String × String)),
      hasLitChain t segs →
      resolveWalk sF path segs t key binds =
        .matched (segs.foldl appendSeg key) binds := by
  intro segs
  induction segs with
  | nil => intro t sF path key binds _; rfl
  | cons s rest ih =>
    intro t sF path key binds hch
    simp only [hasLitChain] at hch
    obtain ⟨c, hfc, hpn, htail⟩ := hch
    rw [resolveWalk, hfc]
    show resolveWalk sF path rest c (appendSeg key c.parameter_name) binds =
      .matched ((s :: rest).foldl appendSeg key) binds
    rw [hpn]
    exact ih c sF path (appendSeg key s) binds htail

/-- Shape compatibility of an incoming path with a registered path: literal
segments must match exactly; a wildcard segment accepts anything except the
literal `*` key. -/
def compatSegs : List String → List String → Bool
  | [], [] => true
  | s :: r, s2 :: r2 =>
    (if strStartsWith s ":" then s2 != "*" else s2 == s) && compatSegs r r2
  | _, _ => false

/-- Reference bindings for the amended claim: each wildcard segment binds
its declared `:name` token to the concrete segment. -/
def route_bindings_spec : List String → List String → List (String × String) →
    List (String × String)
  | s :: r, s2 :: r2, b =>
    route_bindings_spec r r2 (if strStartsWith s ":" then alInsert b s s2 else b)
  | _, _, b => b

/-- Walking a freshly inserted single path with a compatible request path
matches the registered shape and accumulates the wildcard bindings. -/
theorem resolveWalk_single :
    ∀ (segs segs2 : List String) (pn : String) (sF : String → Option String)
      (path key : String) (binds : List (String × String)),
      compatSegs segs segs2 = true → sF path = none →
      resolveWalk sF path segs2 ((RouteTree.node pn []).insertPath segs) key binds =
        .matched (segs.foldl appendSeg key) (route_bindings_spec segs segs2 binds) := by
  intro segs
  induction segs with
  | nil =>
    intro segs2 pn sF path key binds hc hsf
    cases segs2 with
    | nil => rfl
    | cons s2 r2 => exact Bool.noConfusion (show (false : Bool) = true from hc)
  | cons s r ih =>
    intro segs2 pn sF path key binds hc hsf
    cases segs2 with
    | nil => exact Bool.noConfusion (show (false : Bool) = true from hc)
    | cons s2 r2 =>
      rw [compatSegs, Bool.and_eq_true] at hc
      obtain ⟨hc1, hcr⟩ := hc
      have htree : (RouteTree.node pn []).insertPath (s :: r) =
          RouteTree.node pn [((if strStartsWith s ":" = true then "*" else s),
            (RouteTree.node s []).insertPath r)] := rfl
      rw [htree]
      by_cases hs : strStartsWith s ":" = true
      · rw [if_pos hs] at hc1
        rw [if_pos hs]
        have hne : s2 ≠ "*" := by simpa using hc1
        rw [resolveWalk]
        have hfc : RouteTree.findChild
            (RouteTree.node pn [("*", (RouteTree.node s []).insertPath r)]) s2 = none := by
          show alGet [("*", (RouteTree.node s []).insertPath r)] s2 = none
          have hb : (("*" : String) == s2) = false := by
            rw [beq_eq_false_iff_ne]
            exact fun h => hne h.symm
          simp [alGet, List.find?, hb]
        rw [hfc, hsf]
        have hfw : RouteTree.findChild
            (RouteTree.node pn [("*", (RouteTree.node s []).insertPath r)]) "*" =
            some ((RouteTree.node s []).insertPath r) := by
          show alGet [("*", (RouteTree.node s []).insertPath r)] "*" = some _
          simp [alGet, List.find?]
        rw [hfw]
        show resolveWalk sF path r2 ((RouteTree.node s []).insertPath r)
            (appendSeg key ((RouteTree.node s []).insertPath r).parameter_name)
            (alInsert binds ((RouteTree.node s []).insertPath r).parameter_name s2) =
          .matched ((s :: r).foldl appendSeg key)
            (route_bindings_spec (s :: r) (s2 :: r2) binds)
        rw [show ((RouteTree.node s []).insertPath r).parameter_name = s from
          insertPath_parameter_name r _]
        rw [route_bindings_spec, if_pos hs]
        exact ih r2 s sF path (appendSeg key s) (alInsert binds s s2) hcr hsf
      · rw [if_neg hs] at hc1
        rw [if_neg hs]
        have hseq : s2 = s := eq_of_beq hc1
        subst hseq
        rw [resolveWalk]
        have hfc : RouteTree.findChild
            (RouteTree.node pn [(s2, (RouteTree.node s2 []).insertPath r)]) s2 =
            some ((RouteTree.node s2 []).insertPath r) := by
          show alGet [(s2, (RouteTree.node s2 []).insertPath r)] s2 = some _
          simp [alGet, List.find?]
        rw [hfc]
        show resolveWalk sF path r2 ((RouteTree.node s2 []).insertPath r)
            (appendSeg key ((RouteTree.node s2 []).insertPath r).parameter_name) binds =
          .matched ((s2 :: r).foldl appendSeg key)
            (route_bindings_spec (s2 :: r) (s2 :: r2) binds)
        rw [show ((RouteTree.node s2 []).insertPath r).parameter_name = s2 from
          insertPath_parameter_name r _]
        rw [route_bindings_spec, if_neg hs]
        exact ih r2 s2 sF path (appendSeg key s2) binds hcr hsf

/-- C6 amended: with routes registered in canonical form (their route key —
the `/`-joined non-empty segments — equal to the registered string, hence
no leading slash), a request path whose segments match a registered
all-literal route exactly resolves to that route's key with no bindings,
for any static capability and regardless of other registered routes; and
for a registered parameterized route, any compatible concrete path (not
served statically) resolves to the registered path's shape as the key, with
each wildcard's `:name` token bound to the concrete segment value. -/
theorem c6_route_resolution :
    (∀ (paths : List String) (p q : String) (staticF : String → Option String),
      p ∈ paths → litSegsOK (splitSegments p) = true →
      splitSegments q = splitSegments p →
      (splitSegments p).foldl appendSeg "" = p →
      resolveRoute staticF (create_route_tree paths) q = .matched p []) ∧
    (∀ (p q : String) (staticF : String → Option String),
      compatSegs (splitSegments p) (splitSegments q) = true →
      staticF q = none →
      (splitSegments p).foldl appendSeg "" = p →
      resolveRoute staticF (create_route_tree [p]) q =
        .matched p (route_bindings_spec (splitSegments p) (splitSegments q) [])) := by
  constructor
  · intro paths p q staticF hmem hok hsplit hkey
    unfold resolveRoute create_route_tree
    rw [hsplit]
    have hch := hasLitChain_create paths (RouteTree.node "" []) p TreeOK_empty hmem hok
    rw [resolveWalk_chain (splitSegments p) _ staticF q "" [] hch, hkey]
  · intro p q staticF hcompat hsf hkey
    unfold resolveRoute create_route_tree
    rw [show List.foldl (fun t2 p2 => t2.insertPath (splitSegments p2))
      (RouteTree.node "" []) [p] = (RouteTree.node "" []).insertPath (splitSegments p)
      from rfl]
    rw [resolveWalk_single (splitSegments p) (splitSegments q) "" staticF q "" []
      hcompat hsf, hkey]

/-- Witness for C6: the literal route `ping` resolves for `/ping` even with
a static hit available and another parameterized route registered; the
parameterized route `users/:id` resolves `/users/42` to the registered
shape with `:id` bound to `42`. -/
theorem c6_route_resolution_witness :
    resolveRoute (fun _ => some "F") (create_route_tree ["ping", "users/:id"])
      "/ping" = .matched "ping" [] ∧
    resolveRoute (fun _ => none) (create_route_tree ["users/:id"]) "/users/42" =
      .matched "users/:id" [(":id", "42")] :=
  ⟨c6_route_resolution.1 ["ping", "users/:id"] "ping" "/ping" (fun _ => some "F")
     (by decide) (by decide) (by decide) (by decide),
   c6_route_resolution.2 "users/:id" "/users/42" (fun _ => none)
     (by decide) rfl (by decide)⟩

end Pico
